import Mathlib

/-!
Verification of the bed-occupancy forecasting core of the Cih_BedPredict
backend.  The definitions below are a shallow embedding of the two router
modules (backend/app/routers/predictions.py and backend/app/routers/public.py):
Python floats are modelled as rationals, Python ints as integers, calendar
dates as absolute day numbers, and the fallible primary forecasting model
(the Prophet service, which is not part of the embedded core) as an explicit
Except-valued parameter.  Python exceptions (HTTP errors, ZeroDivisionError)
are modelled with Except.
-/

namespace BedPredict

/-- Historical daily record of one hospital: the calendar date as an absolute
day number and the raw occupied-bed count (EHRRecord.date, occupied_beds). -/
structure Record where
  date : ℤ
  occupied : ℤ
deriving DecidableEq

/-- Python int() conversion on a real number: truncation toward zero. -/
def pyInt (q : ℚ) : ℤ :=
  if q < 0 then ⌈q⌉ else ⌊q⌋

/-- Python round() to the nearest integer, halves to the even neighbour. -/
def pyRound (q : ℚ) : ℤ :=
  if q - ⌊q⌋ < 1/2 then ⌊q⌋
  else if 1/2 < q - ⌊q⌋ then ⌊q⌋ + 1
  else if ⌊q⌋ % 2 = 0 then ⌊q⌋ else ⌊q⌋ + 1

/-- Python round(x, 1): rounding to one decimal place, halves to even. -/
def pyRound1 (q : ℚ) : ℚ :=
  (pyRound (q * 10) : ℚ) / 10

/-- Embedding of _clamp_occupancy from predictions.py (lines 29-32), the
float-valued admin variant: a missing value counts as zero; with non-positive
capacity only the lower clamp applies. -/
def clampOccQ (value : Option ℚ) (total : ℤ) : ℚ :=
  let v := value.getD 0
  if total ≤ 0 then max 0 v
  else max 0 (min v (total : ℚ))

/-- Embedding of _clamp_occupancy from public.py (lines 31-35), the
integer-valued public variant: the value passes through int() first. -/
def clampOccInt (value : Option ℚ) (total : ℤ) : ℤ :=
  let v := pyInt (value.getD 0)
  if total ≤ 0 then max 0 v
  else max 0 (min v total)

/-- Embedding of _calculate_utilization from public.py (lines 38-41). -/
def calculateUtilization (occupied : ℚ) (total : ℤ) : ℚ :=
  if total ≤ 0 then 0
  else pyRound1 ((occupied / (total : ℚ)) * 100)

/-- Embedding of _risk_from_utilization from public.py (lines 44-49). -/
def riskFromUtilization (u : ℚ) : String :=
  if 85 ≤ u then "high"
  else if 70 ≤ u then "medium"
  else "low"

/-- Status labels of the availability endpoint, public.py lines 191-196. -/
def availabilityStatus (u : ℚ) : String :=
  if 85 ≤ u then "high"
  else if 70 ≤ u then "moderate"
  else "available"

/-- Risk labels of the comparison endpoint, public.py lines 342-347. -/
def comparisonRisk (u : ℚ) : String :=
  if 85 ≤ u then "high"
  else if 70 ≤ u then "medium"
  else "low"

/-- Per-day alert severity of the public alerts endpoint, public.py lines
450-464: critical at or above 85, warning at or above 70, none below. -/
def alertSeverity (u : ℚ) : Option String :=
  if 85 ≤ u then some "critical"
  else if 70 ≤ u then some "warning"
  else none

/-- Colour classification of the current utilization used by the dashboard
when no alerts were generated, predictions.py lines 275-280. -/
def currentStatusColor (u : ℚ) : String :=
  if 85 ≤ u then "red"
  else if 70 ≤ u then "yellow"
  else "green"

/-- Overall dashboard status, predictions.py lines 261-280: it inspects the
severities of the generated alerts; with no alerts it falls back to
classifying the current utilization. -/
def overallStatusDashboard (severities : List String) (currentUtil : ℚ) : String :=
  if severities.isEmpty then currentStatusColor currentUtil
  else if severities.contains "red" then "red"
  else if severities.contains "yellow" then "yellow"
  else "green"

/-- Transient alert value of the public alerts endpoint (type, severity and
the date the alert is about; the templated message text is presentation). -/
structure Alert where
  alert_type : String
  severity : String
  date : ℤ
deriving DecidableEq

/-- Embedding of the alert-building loop of get_hospital_alerts, public.py
lines 443-464: one alert per forecast day whose clamped utilization reaches
the warning threshold. -/
def publicAlerts (preds : List (ℤ × ℚ)) (total : ℤ) : List Alert :=
  preds.filterMap (fun p =>
    let occ := clampOccInt (some p.2) total
    let util := calculateUtilization (occ : ℚ) total
    if 85 ≤ util then some ⟨"high_occupancy", "critical", p.1⟩
    else if 70 ≤ util then some ⟨"capacity_warning", "warning", p.1⟩
    else none)

/-- Forecast point of the admin fallback predictor (date, point forecast and
the two confidence bounds), predictions.py lines 57-62. -/
structure AdminPoint where
  date : ℤ
  predicted_occupancy : ℚ
  lower_bound : ℚ
  upper_bound : ℚ
deriving DecidableEq

/-- Trend delta of the admin fallback predictor, predictions.py lines 43-47:
the mean of the successive differences of the last at most eight normalized
occupancies, clamped to [-5, 5]; zero when no difference exists. -/
def trendDeltaQ (records : List Record) (total : ℤ) : ℚ :=
  let normalized := records.map (fun r => clampOccQ (some (r.occupied : ℚ)) total)
  let recent := normalized.drop (normalized.length - 8)
  let deltas := List.zipWith (fun a b => b - a) recent recent.tail
  let avg : ℚ := if deltas.isEmpty then 0 else deltas.sum / (deltas.length : ℚ)
  max (-5) (min 5 avg)

/-- Embedding of _build_fallback_predictions, predictions.py lines 35-64. -/
def adminFallback (records : List Record) (total : ℤ) (days : ℕ) : List AdminPoint :=
  match records with
  | [] => []
  | r :: rs =>
    let lastRec := (r :: rs).getLast (List.cons_ne_nil r rs)
    let lastOcc := clampOccQ (some (lastRec.occupied : ℚ)) total
    let delta := trendDeltaQ (r :: rs) total
    (List.range days).map (fun i =>
      let predicted := clampOccQ (some (lastOcc + delta * ((i + 1 : ℕ) : ℚ))) total
      { date := lastRec.date + ((i + 1 : ℕ) : ℤ)
        predicted_occupancy := pyRound1 predicted
        lower_bound := pyRound1 (clampOccQ (some (predicted - 8)) total)
        upper_bound := pyRound1 (clampOccQ (some (predicted + 8)) total) })

/-- Forecast point of the public fallback predictor, public.py lines 84-87. -/
structure PubPoint where
  date : ℤ
  predicted_occupancy : ℤ
deriving DecidableEq

/-- Trend delta of the public fallback predictor, public.py lines 64-73: as
trendDeltaQ, over the integer-normalized occupancies. -/
def trendDeltaZ (records : List Record) (total : ℤ) : ℚ :=
  let normalized := records.map (fun r => clampOccInt (some (r.occupied : ℚ)) total)
  let recent := normalized.drop (normalized.length - 8)
  let deltas := List.zipWith (fun a b => b - a) recent recent.tail
  let avg : ℚ := if deltas.isEmpty then 0 else ((deltas.sum : ℤ) : ℚ) / (deltas.length : ℚ)
  max (-5) (min 5 avg)

/-- Embedding of _build_fallback_forecast, public.py lines 52-89: the
projection is rounded to the nearest whole bed before the clamp. -/
def publicFallback (records : List Record) (total : ℤ) (days : ℕ) : List PubPoint :=
  match records with
  | [] => []
  | r :: rs =>
    let lastRec := (r :: rs).getLast (List.cons_ne_nil r rs)
    let lastOcc := clampOccInt (some (lastRec.occupied : ℚ)) total
    let delta := trendDeltaZ (r :: rs) total
    (List.range days).map (fun i =>
      { date := lastRec.date + ((i + 1 : ℕ) : ℤ)
        predicted_occupancy :=
          clampOccInt (some ((pyRound ((lastOcc : ℚ) + delta * ((i + 1 : ℕ) : ℚ)) : ℤ) : ℚ)) total })

/-- Per-day entry of the public forecast response, public.py lines 112-118. -/
structure DayForecast where
  date : ℤ
  predicted_occupancy : ℤ
  predicted_available : ℤ
  utilization_percentage : ℚ
  risk_level : String
deriving DecidableEq

/-- One step of the _format_forecast_response loop, public.py lines 100-118:
it extends the day list and keeps the smallest clamped occupancy seen so far
together with its date, the comparison being strict. -/
def formatStep (total : ℤ) (acc : List DayForecast × Option ℤ × Option ℤ)
    (pred : ℤ × ℚ) : List DayForecast × Option ℤ × Option ℤ :=
  let occ := clampOccInt (some pred.2) total
  let avail := max 0 (total - occ)
  let util := calculateUtilization (occ : ℚ) total
  let isNewMin : Bool := match acc.2.2 with
    | none => true
    | some m => occ < m
  let best := if isNewMin then some pred.1 else acc.2.1
  let minOcc := if isNewMin then some occ else acc.2.2
  (acc.1 ++ [{ date := pred.1, predicted_occupancy := occ, predicted_available := avail,
               utilization_percentage := util, risk_level := riskFromUtilization util }],
   best, minOcc)

/-- Embedding of _format_forecast_response, public.py lines 92-121: returns
the formatted days, the best day to visit and its occupancy. -/
def formatForecastResponse (preds : List (ℤ × ℚ)) (total : ℤ) :
    List DayForecast × Option ℤ × Option ℤ :=
  preds.foldl (formatStep total) ([], none, none)

/-- Prediction selection of get_hospital_forecast, public.py lines 246-256:
the primary model runs only on at least 14 records and any failure of it is
replaced by the public fallback forecast. -/
def selectPublicPredictions (primary : Except Unit (List (ℤ × ℚ)))
    (records : List Record) (total : ℤ) (days : ℕ) : List (ℤ × ℚ) :=
  if 14 ≤ records.length then
    match primary with
    | .ok ps => ps
    | .error _ => (publicFallback records total days).map
        (fun p => (p.date, (p.predicted_occupancy : ℚ)))
  else (publicFallback records total days).map
      (fun p => (p.date, (p.predicted_occupancy : ℚ)))

/-- Embedding of get_hospital_forecast, public.py lines 211-271, from the
point where the hospital exists: with no records an empty forecast response,
otherwise the formatted selected predictions.  No branch is an error. -/
def getHospitalForecast (primary : Except Unit (List (ℤ × ℚ)))
    (records : List Record) (total : ℤ) (days : ℕ) :
    List DayForecast × Option ℤ × Option ℤ :=
  if records.isEmpty then ([], none, none)
  else formatForecastResponse (selectPublicPredictions primary records total days) total

/-- Model metadata attached to an admin prediction response. -/
structure ModelInfo where
  model : String
  history_points : ℕ
  note : String
deriving DecidableEq

/-- Metadata attached by predict_occupancy when it routes to the fallback
for insufficient history, predictions.py lines 121-125. -/
def fallbackModelInfo (n : ℕ) : ModelInfo :=
  { model := "fallback_trend", history_points := n,
    note := "Insufficient history for Prophet. Using trend-based fallback forecast." }

/-- Error outcomes of the admin predict endpoint: the 404 for a missing
hospital or empty history, and the 500 raised when prediction fails. -/
inductive PredictError where
  | notFound
  | internalError
deriving DecidableEq

/-- Successful response of the admin predict endpoint. -/
structure PredictResponse where
  predictions : List AdminPoint
  model_info : ModelInfo
deriving DecidableEq

/-- Embedding of predict_occupancy, predictions.py lines 67-144, from the
point where the hospital exists: empty history is a 404; with at least 14
records the primary model is invoked and a failure of it propagates out of
the try block as a 500; below 14 records the admin fallback runs with
fallback provenance metadata. -/
def predictOccupancy (primary : Except Unit (List AdminPoint × ModelInfo))
    (records : List Record) (total : ℤ) (days : ℕ) :
    Except PredictError PredictResponse :=
  if records.isEmpty then .error .notFound
  else if 14 ≤ records.length then
    match primary with
    | .ok (ps, mi) => .ok ⟨ps, mi⟩
    | .error _ => .error .internalError
  else .ok ⟨adminFallback records total days, fallbackModelInfo records.length⟩

/-- Comparison entry for one hospital, public.py lines 349-359. -/
structure CompEntry where
  current_occupancy : ℤ
  current_available : ℤ
  utilization_percentage : ℚ
  avg_predicted_occupancy_7_days : ℚ
  recommendation_score : ℚ
  risk_level : String
deriving DecidableEq

/-- Recommendation score of compare_hospitals, public.py lines 337-339:
equal halves for availability now and over the forecast horizon. -/
def recommendationScore (total curr : ℤ) (avg : ℚ) : ℚ :=
  (((total : ℚ) - (curr : ℚ)) / (total : ℚ)) * 50
    + (((total : ℚ) - avg) / (total : ℚ)) * 50

/-- Average of the seven public fallback points, the default being the
current occupancy when the fallback produced nothing, public.py 327-333. -/
def compareFallbackAvg (records : List Record) (total : ℤ) (curr : ℤ) : ℚ :=
  if (publicFallback records total 7).isEmpty then (curr : ℚ)
  else ((publicFallback records total 7).map (fun p => (p.predicted_occupancy : ℚ))).sum
    / (((publicFallback records total 7).length : ℕ) : ℚ)

/-- Seven-day average forecast of the compare_hospitals loop, public.py lines
312-333: primary model on at least 14 records with fallback on its failure;
averaging an empty primary prediction list is the uncaught ZeroDivisionError
of line 325. -/
def compareAvg (primary : List Record → Except Unit (List ℚ))
    (records : List Record) (total : ℤ) (curr : ℤ) : Except Unit ℚ :=
  if 14 ≤ records.length then
    match primary records with
    | .ok ps =>
        if ps.isEmpty then .error ()
        else .ok (ps.sum / ((ps.length : ℕ) : ℚ))
    | .error _ => .ok (compareFallbackAvg records total curr)
  else .ok (compareFallbackAvg records total curr)

/-- Per-hospital body of the compare_hospitals loop, public.py lines 299-359,
for a hospital that has at least one record.  Except models the two uncaught
ZeroDivisionError sites: averaging an empty primary prediction list (line
325) and the score division when total_beds is zero (lines 337-338).  In the
rational model division by zero is total, so the errors are made explicit. -/
def compareEntry (primary : List Record → Except Unit (List ℚ))
    (records : List Record) (total : ℤ) : Except Unit CompEntry :=
  let lastRec := records.getLastD ⟨0, 0⟩
  let curr := clampOccInt (some (lastRec.occupied : ℚ)) total
  let currAvail := max 0 (total - curr)
  let util := calculateUtilization (curr : ℚ) total
  match compareAvg primary records total curr with
  | .error e => .error e
  | .ok avg =>
    if total = 0 then .error ()
    else .ok
      { current_occupancy := curr
        current_available := currAvail
        utilization_percentage := util
        avg_predicted_occupancy_7_days := pyRound1 avg
        recommendation_score := pyRound1 (recommendationScore total curr avg)
        risk_level := comparisonRisk util }

/-- Loop of compare_hospitals over (total_beds, record series) pairs:
hospitals without a record are skipped; an uncaught per-hospital failure
aborts the whole loop, mirroring the absence of a per-hospital handler. -/
def comparisonsLoop (primary : List Record → Except Unit (List ℚ)) :
    List (ℤ × List Record) → Except Unit (List CompEntry)
  | [] => .ok []
  | (total, records) :: rest =>
    if records.isEmpty then comparisonsLoop primary rest
    else
      match compareEntry primary records total with
      | .error e => .error e
      | .ok entry => (comparisonsLoop primary rest).map (fun l => entry :: l)

/-- Stable descending insertion by recommendation score: an element moves
past exactly the entries with a strictly smaller score. -/
def insertDesc (x : CompEntry) : List CompEntry → List CompEntry
  | [] => [x]
  | y :: ys =>
    if x.recommendation_score ≤ y.recommendation_score then y :: insertDesc x ys
    else x :: y :: ys

/-- Stable descending sort by recommendation score, matching the stable
Python sort with key recommendation_score and reverse set. -/
def sortDesc (l : List CompEntry) : List CompEntry :=
  l.foldl (fun acc x => insertDesc x acc) []

/-- Embedding of compare_hospitals, public.py lines 274-364, from the point
where the hospital list is non-empty: the loop followed by the stable
descending sort. -/
def compareHospitals (primary : List Record → Except Unit (List ℚ))
    (hs : List (ℤ × List Record)) : Except Unit (List CompEntry) :=
  (comparisonsLoop primary hs).map sortDesc

/-! Helper lemmas about the numeric primitives. -/

lemma pyInt_intCast (n : ℤ) : pyInt (n : ℚ) = n := by
  unfold pyInt
  split <;> simp

lemma floor_le_pyRound (q : ℚ) : ⌊q⌋ ≤ pyRound q := by
  unfold pyRound
  split_ifs <;> omega

lemma le_pyRound {n : ℤ} {q : ℚ} (h : (n : ℚ) ≤ q) : n ≤ pyRound q :=
  le_trans (Int.le_floor.mpr h) (floor_le_pyRound q)

lemma pyRound_le {n : ℤ} {q : ℚ} (h : q ≤ (n : ℚ)) : pyRound q ≤ n := by
  have hf : ⌊q⌋ ≤ n := by
    have := Int.floor_le_floor h
    simpa using this
  have hfl : (⌊q⌋ : ℚ) ≤ q := Int.floor_le q
  unfold pyRound
  split_ifs with h1 h2 h3
  · exact hf
  · have hlt : (⌊q⌋ : ℚ) + 1/2 < q := by linarith
    have : (⌊q⌋ : ℚ) < (n : ℚ) := by linarith
    have : ⌊q⌋ < n := by exact_mod_cast this
    omega
  · exact hf
  · have hge : (1 : ℚ)/2 ≤ q - ⌊q⌋ := not_lt.mp h1
    have : (⌊q⌋ : ℚ) < (n : ℚ) := by linarith
    have : ⌊q⌋ < n := by exact_mod_cast this
    omega

lemma pyRound_intCast (n : ℤ) : pyRound (n : ℚ) = n :=
  le_antisymm (pyRound_le le_rfl) (le_pyRound le_rfl)

lemma le_pyRound1 {n : ℤ} {q : ℚ} (h : (n : ℚ) ≤ q) : (n : ℚ) ≤ pyRound1 q := by
  unfold pyRound1
  have h10 : ((10 * n : ℤ) : ℚ) ≤ q * 10 := by push_cast; linarith
  have := le_pyRound h10
  have : ((10 * n : ℤ) : ℚ) ≤ (pyRound (q * 10) : ℚ) := by exact_mod_cast this
  rw [le_div_iff₀ (by norm_num : (0:ℚ) < 10)]
  push_cast at this ⊢
  linarith

lemma pyRound1_le {n : ℤ} {q : ℚ} (h : q ≤ (n : ℚ)) : pyRound1 q ≤ (n : ℚ) := by
  unfold pyRound1
  have h10 : q * 10 ≤ ((10 * n : ℤ) : ℚ) := by push_cast; linarith
  have := pyRound_le h10
  have : (pyRound (q * 10) : ℚ) ≤ ((10 * n : ℤ) : ℚ) := by exact_mod_cast this
  rw [div_le_iff₀ (by norm_num : (0:ℚ) < 10)]
  push_cast at this ⊢
  linarith

lemma pyRound1_intCast (n : ℤ) : pyRound1 (n : ℚ) = (n : ℚ) :=
  le_antisymm (pyRound1_le le_rfl) (le_pyRound1 le_rfl)

lemma clampOccQ_nonneg (v : Option ℚ) (t : ℤ) : 0 ≤ clampOccQ v t := by
  unfold clampOccQ
  split <;> exact le_max_left 0 _

lemma clampOccQ_le {v : Option ℚ} {t : ℤ} (ht : 0 < t) : clampOccQ v t ≤ (t : ℚ) := by
  unfold clampOccQ
  rw [if_neg (not_le.mpr ht)]
  exact max_le (by exact_mod_cast ht.le) (min_le_right _ _)

lemma clampOccInt_nonneg (v : Option ℚ) (t : ℤ) : 0 ≤ clampOccInt v t := by
  unfold clampOccInt
  split <;> exact le_max_left 0 _

lemma clampOccInt_le {v : Option ℚ} {t : ℤ} (ht : 0 < t) : clampOccInt v t ≤ t := by
  unfold clampOccInt
  rw [if_neg (not_le.mpr ht)]
  exact max_le ht.le (min_le_right _ _)

lemma list_mean_le {l : List ℚ} {b : ℚ} (hne : l ≠ []) (hhi : ∀ x ∈ l, x ≤ b) :
    l.sum / (l.length : ℚ) ≤ b := by
  have hlen : 0 < (l.length : ℚ) := by
    have : 0 < l.length := List.length_pos.mpr hne
    exact_mod_cast this
  have hsum : l.sum ≤ (l.length : ℚ) * b := by
    have := List.sum_le_card_nsmul l b hhi
    simpa [nsmul_eq_mul] using this
  rw [div_le_iff₀ hlen]
  linarith

lemma le_list_mean {l : List ℚ} {a : ℚ} (hne : l ≠ []) (hlo : ∀ x ∈ l, a ≤ x) :
    a ≤ l.sum / (l.length : ℚ) := by
  have hlen : 0 < (l.length : ℚ) := by
    have : 0 < l.length := List.length_pos.mpr hne
    exact_mod_cast this
  have hsum : (l.length : ℚ) * a ≤ l.sum := by
    have := List.card_nsmul_le_sum l a hlo
    simpa [nsmul_eq_mul] using this
  rw [le_div_iff₀ hlen]
  linarith

lemma pyRound_eq_of_lt_half {q : ℚ} {n : ℤ} (h1 : (n : ℚ) ≤ q) (h2 : q < (n : ℚ) + 1/2) :
    pyRound q = n := by
  have hf : ⌊q⌋ = n := Int.floor_eq_iff.mpr ⟨h1, by linarith⟩
  unfold pyRound
  rw [hf, if_pos (by linarith)]

lemma pyRound_eq_of_half_lt {q : ℚ} {n : ℤ} (h1 : (n : ℚ) + 1/2 < q) (h2 : q < (n : ℚ) + 1) :
    pyRound q = n + 1 := by
  have hf : ⌊q⌋ = n := Int.floor_eq_iff.mpr ⟨by linarith, h2⟩
  unfold pyRound
  rw [hf, if_neg (by linarith), if_pos (by linarith)]

/-! Claim theorems. -/

lemma adminFallback_length {records : List Record} (total : ℤ) (days : ℕ)
    (hne : records ≠ []) : (adminFallback records total days).length = days := by
  match records with
  | [] => exact absurd rfl hne
  | r :: rs => simp [adminFallback]

lemma publicFallback_length {records : List Record} (total : ℤ) (days : ℕ)
    (hne : records ≠ []) : (publicFallback records total days).length = days := by
  match records with
  | [] => exact absurd rfl hne
  | r :: rs => simp [publicFallback]

/-- C6: for all inputs, normalize never raises; with positive capacity the
result is the value clamped into the range from zero to total_beds, a
missing value counting as zero, and with non-positive capacity the result is
the maximum of zero and the value; the result is always non-negative and,
with positive capacity, never exceeds total_beds.  Both the rational admin
variant and the integer public variant are covered. -/
theorem C6_normalize_clamps (v : Option ℚ) (total : ℤ) :
    (0 < total →
      clampOccQ v total = max 0 (min (v.getD 0) (total : ℚ)) ∧
      clampOccQ v total ≤ (total : ℚ) ∧
      (∀ n : ℤ, v = some (n : ℚ) → clampOccInt v total = max 0 (min n total)) ∧
      clampOccInt v total ≤ total) ∧
    (total ≤ 0 →
      clampOccQ v total = max 0 (v.getD 0) ∧
      (∀ n : ℤ, v = some (n : ℚ) → clampOccInt v total = max 0 n)) ∧
    0 ≤ clampOccQ v total ∧ 0 ≤ clampOccInt v total ∧
    clampOccQ none total = clampOccQ (some 0) total ∧
    clampOccInt none total = clampOccInt (some 0) total := by
  refine ⟨fun ht => ⟨?_, clampOccQ_le ht, fun n hn => ?_, clampOccInt_le ht⟩,
    fun ht => ⟨?_, fun n hn => ?_⟩,
    clampOccQ_nonneg v total, clampOccInt_nonneg v total, rfl, rfl⟩
  · unfold clampOccQ
    rw [if_neg (not_le.mpr ht)]
  · subst hn
    unfold clampOccInt
    rw [if_neg (not_le.mpr ht)]
    simp [pyInt_intCast]
  · unfold clampOccQ
    rw [if_pos ht]
  · subst hn
    unfold clampOccInt
    rw [if_pos ht]
    simp [pyInt_intCast]

/-- Witness for C6 at concrete inputs: an overfull count clamps to capacity,
a negative count clamps to zero, and a degenerate capacity keeps the raw
count with only the lower clamp. -/
theorem C6_witness :
    clampOccQ (some 120) 100 = max 0 (min ((some (120 : ℚ)).getD 0) ((100 : ℤ) : ℚ)) ∧
    clampOccInt (some ((-3 : ℤ) : ℚ)) 100 = max 0 (min (-3) 100) ∧
    clampOccQ (some 7) (-2) = max 0 ((some (7 : ℚ)).getD 0) :=
  ⟨((C6_normalize_clamps (some 120) 100).1 (by norm_num)).1,
   ((C6_normalize_clamps (some ((-3 : ℤ) : ℚ)) 100).1 (by norm_num)).2.2.1 (-3) rfl,
   ((C6_normalize_clamps (some 7) (-2)).2.1 (by norm_num)).1⟩

/-- C7: both fallback forecasters are total: an empty record list yields the
empty sequence, and a non-empty record list yields exactly horizon_days
forecast points for any capacity and any horizon. -/
theorem C7_fallback_totality (records : List Record) (total : ℤ) (days : ℕ) :
    adminFallback [] total days = [] ∧ publicFallback [] total days = [] ∧
    (records ≠ [] →
      (adminFallback records total days).length = days ∧
      (publicFallback records total days).length = days) := by
  exact ⟨rfl, rfl, fun hne =>
    ⟨adminFallback_length total days hne, publicFallback_length total days hne⟩⟩

/-- Witness for C7: one record and a three-day horizon give three points. -/
theorem C7_witness :
    ([⟨0, 5⟩] : List Record) ≠ [] ∧
    (adminFallback [⟨0, 5⟩] 10 3).length = 3 ∧
    (publicFallback [⟨0, 5⟩] 10 3).length = 3 :=
  ⟨by simp, (C7_fallback_totality [⟨0, 5⟩] 10 3).2.2 (by simp)⟩

/-- C2: every consumer of risk classification uses the same boundaries: at or
above 85 the high tier (high, high, high, critical, red across the five
consumers), in the interval from 70 up to but excluding 85 the middle tier
(medium, moderate, medium, warning, yellow), and below 70 the low tier (low,
available, low, no alert, green); both boundary values belong to the higher
tier in every consumer. -/
theorem C2_risk_thresholds_consistent (u : ℚ) :
    (85 ≤ u →
      riskFromUtilization u = "high" ∧ availabilityStatus u = "high" ∧
      comparisonRisk u = "high" ∧ alertSeverity u = some "critical" ∧
      currentStatusColor u = "red") ∧
    (70 ≤ u → u < 85 →
      riskFromUtilization u = "medium" ∧ availabilityStatus u = "moderate" ∧
      comparisonRisk u = "medium" ∧ alertSeverity u = some "warning" ∧
      currentStatusColor u = "yellow") ∧
    (u < 70 →
      riskFromUtilization u = "low" ∧ availabilityStatus u = "available" ∧
      comparisonRisk u = "low" ∧ alertSeverity u = none ∧
      currentStatusColor u = "green") := by
  refine ⟨fun h85 => ?_, fun h70 h85 => ?_, fun h70 => ?_⟩
  · simp [riskFromUtilization, availabilityStatus, comparisonRisk, alertSeverity,
      currentStatusColor, if_pos h85]
  · have hn : ¬ 85 ≤ u := not_le.mpr h85
    simp [riskFromUtilization, availabilityStatus, comparisonRisk, alertSeverity,
      currentStatusColor, if_neg hn, if_pos h70]
  · have hn85 : ¬ 85 ≤ u := not_le.mpr (lt_trans h70 (by norm_num))
    have hn70 : ¬ 70 ≤ u := not_le.mpr h70
    simp [riskFromUtilization, availabilityStatus, comparisonRisk, alertSeverity,
      currentStatusColor, if_neg hn85, if_neg hn70]

/-- Witness for C2 at the two boundary values and below: exactly 85 falls in
the high tier, exactly 70 in the middle tier, 69.9 in the low tier. -/
theorem C2_witness :
    (riskFromUtilization 85 = "high" ∧ availabilityStatus 85 = "high" ∧
      comparisonRisk 85 = "high" ∧ alertSeverity 85 = some "critical" ∧
      currentStatusColor 85 = "red") ∧
    (riskFromUtilization 70 = "medium" ∧ availabilityStatus 70 = "moderate" ∧
      comparisonRisk 70 = "medium" ∧ alertSeverity 70 = some "warning" ∧
      currentStatusColor 70 = "yellow") ∧
    (riskFromUtilization (699/10) = "low" ∧ availabilityStatus (699/10) = "available" ∧
      comparisonRisk (699/10) = "low" ∧ alertSeverity (699/10) = none ∧
      currentStatusColor (699/10) = "green") :=
  ⟨(C2_risk_thresholds_consistent 85).1 le_rfl,
   (C2_risk_thresholds_consistent 70).2.1 le_rfl (by norm_num),
   (C2_risk_thresholds_consistent (699/10)).2.2 (by norm_num)⟩

/-- C4: the overall dashboard status is red when any generated alert has the
critical (red) severity, otherwise yellow when any alert has the warning
(yellow) severity, otherwise green; with no alerts at all it is instead the
classification of the current utilization by the same 85 and 70 thresholds. -/
theorem C4_overall_status (sevs : List String) (u : ℚ) :
    (sevs ≠ [] →
      ("red" ∈ sevs → overallStatusDashboard sevs u = "red") ∧
      ("red" ∉ sevs → "yellow" ∈ sevs → overallStatusDashboard sevs u = "yellow") ∧
      ("red" ∉ sevs → "yellow" ∉ sevs → overallStatusDashboard sevs u = "green")) ∧
    (sevs = [] →
      overallStatusDashboard sevs u = currentStatusColor u ∧
      (85 ≤ u → overallStatusDashboard sevs u = "red") ∧
      (70 ≤ u → u < 85 → overallStatusDashboard sevs u = "yellow") ∧
      (u < 70 → overallStatusDashboard sevs u = "green")) := by
  constructor
  · intro hne
    have hE : sevs.isEmpty = false := by
      simpa [List.isEmpty_iff] using hne
    refine ⟨fun hr => ?_, fun hnr hy => ?_, fun hnr hny => ?_⟩
    · simp [overallStatusDashboard, hE, hr]
    · simp [overallStatusDashboard, hE, hnr, hy]
    · simp [overallStatusDashboard, hE, hnr, hny]
  · rintro rfl
    refine ⟨by simp [overallStatusDashboard], fun h85 => ?_, fun h70 h85 => ?_, fun h70 => ?_⟩
    · simp [overallStatusDashboard, currentStatusColor, if_pos h85]
    · simp [overallStatusDashboard, currentStatusColor, if_neg (not_le.mpr h85), if_pos h70]
    · have hn85 : ¬ 85 ≤ u := not_le.mpr (lt_trans h70 (by norm_num))
      simp [overallStatusDashboard, currentStatusColor, if_neg hn85, if_neg (not_le.mpr h70)]

/-- Witness for C4: a warning-only alert list gives yellow, and an empty
alert list with a current utilization of 90 gives red. -/
theorem C4_witness :
    overallStatusDashboard ["yellow", "yellow"] 20 = "yellow" ∧
    overallStatusDashboard [] 90 = "red" :=
  ⟨((C4_overall_status ["yellow", "yellow"] 20).1 (by simp)).2.1 (by simp) (by simp),
   ((C4_overall_status [] 90).2 rfl).2.1 (by norm_num)⟩

/-- C1 (amended): for every non-empty record series the fallback point at
offset i+1 has the date of the last record plus i+1 days and carries the
projection normalize(last_occupancy + trend_delta * (i+1)) in rounded form:
the admin forecaster stores that projection rounded to one decimal place and
its bounds are the one-decimal roundings of normalize(projection - 8) and
normalize(projection + 8); the public forecaster rounds the raw projection
to the nearest whole bed before normalizing.  The trend delta is in both the
mean of the successive differences of the last at-most-8 normalized
occupancies, clamped to [-5, 5] and zero for a window below 2 points
(definitions trendDeltaQ and trendDeltaZ). -/
theorem C1_fallback_point_values (records : List Record) (total : ℤ) (days : ℕ)
    (hne : records ≠ []) (i : ℕ) (hi : i < days) :
    ∃ lastRec : Record, records.getLast? = some lastRec ∧
      (adminFallback records total days)[i]? = some
        { date := lastRec.date + ((i + 1 : ℕ) : ℤ)
          predicted_occupancy := pyRound1 (clampOccQ (some
            (clampOccQ (some (lastRec.occupied : ℚ)) total
              + trendDeltaQ records total * ((i + 1 : ℕ) : ℚ))) total)
          lower_bound := pyRound1 (clampOccQ (some
            (clampOccQ (some (clampOccQ (some (lastRec.occupied : ℚ)) total
              + trendDeltaQ records total * ((i + 1 : ℕ) : ℚ))) total - 8)) total)
          upper_bound := pyRound1 (clampOccQ (some
            (clampOccQ (some (clampOccQ (some (lastRec.occupied : ℚ)) total
              + trendDeltaQ records total * ((i + 1 : ℕ) : ℚ))) total + 8)) total) } ∧
      (publicFallback records total days)[i]? = some
        { date := lastRec.date + ((i + 1 : ℕ) : ℤ)
          predicted_occupancy := clampOccInt (some
            ((pyRound ((clampOccInt (some (lastRec.occupied : ℚ)) total : ℚ)
              + trendDeltaZ records total * ((i + 1 : ℕ) : ℚ)) : ℤ) : ℚ)) total } := by
  match records with
  | [] => exact absurd rfl hne
  | r :: rs =>
    refine ⟨(r :: rs).getLast (List.cons_ne_nil r rs),
      List.getLast?_eq_getLast _ _, ?_, ?_⟩
    · simp [adminFallback, List.getElem?_map, List.getElem?_range, hi]
    · simp [publicFallback, List.getElem?_map, List.getElem?_range, hi]

/-- Counterexample to C1 as stated: with records of occupancies 0, 0, 0, 1
and 100 beds the trend delta is 1/3 and the claimed day-1 point value is
normalize(1 + 1/3) = 4/3; the admin forecaster instead stores 1.3 (the
one-decimal rounding) and the public forecaster stores 1 (the whole-bed
rounding), both different from 4/3. -/
theorem C1_counterexample :
    trendDeltaQ [⟨0,0⟩,⟨1,0⟩,⟨2,0⟩,⟨3,1⟩] 100 = 1/3 ∧
    clampOccQ (some ((1 : ℚ) + (1/3) * 1)) 100 = 4/3 ∧
    (adminFallback [⟨0,0⟩,⟨1,0⟩,⟨2,0⟩,⟨3,1⟩] 100 1).map
      (fun p => p.predicted_occupancy) = [13/10] ∧
    (publicFallback [⟨0,0⟩,⟨1,0⟩,⟨2,0⟩,⟨3,1⟩] 100 1).map
      (fun p => ((p.predicted_occupancy : ℤ) : ℚ)) = [1] ∧
    ((13 : ℚ)/10) ≠ 4/3 ∧ ((1 : ℚ)) ≠ 4/3 := by
  have e1 : pyRound ((40:ℚ)/3) = 13 := pyRound_eq_of_lt_half (by norm_num) (by norm_num)
  have e2 : pyRound ((4:ℚ)/3) = 1 := pyRound_eq_of_lt_half (by norm_num) (by norm_num)
  refine ⟨?_, ?_, ?_, ?_, by norm_num, by norm_num⟩
  · norm_num [trendDeltaQ, clampOccQ, min_def, max_def]
  · norm_num [clampOccQ, min_def, max_def]
  · norm_num [adminFallback, trendDeltaQ, clampOccQ, pyRound1, min_def, max_def,
      List.range_succ, List.getLast, e1]
  · norm_num [publicFallback, trendDeltaZ, clampOccInt, pyInt, min_def, max_def,
      List.range_succ, List.getLast, e2]

/-- Witness for C1 at the end-to-end scenario of the spec: 100 beds, last
occupancy 60, recent deltas averaging +2 per day; day 1 projects 62 with
bounds 54 and 70, day 2 projects 64 in both forecasters. -/
theorem C1_witness :
    (([⟨0,56⟩,⟨1,58⟩,⟨2,60⟩] : List Record) ≠ [] ∧ 0 < 2 ∧
      (∃ lastRec : Record, ([⟨0,56⟩,⟨1,58⟩,⟨2,60⟩] : List Record).getLast? = some lastRec ∧
        (adminFallback [⟨0,56⟩,⟨1,58⟩,⟨2,60⟩] 100 2)[0]? = some
          { date := lastRec.date + ((0 + 1 : ℕ) : ℤ)
            predicted_occupancy := pyRound1 (clampOccQ (some
              (clampOccQ (some (lastRec.occupied : ℚ)) 100
                + trendDeltaQ [⟨0,56⟩,⟨1,58⟩,⟨2,60⟩] 100 * ((0 + 1 : ℕ) : ℚ))) 100)
            lower_bound := pyRound1 (clampOccQ (some
              (clampOccQ (some (clampOccQ (some (lastRec.occupied : ℚ)) 100
                + trendDeltaQ [⟨0,56⟩,⟨1,58⟩,⟨2,60⟩] 100 * ((0 + 1 : ℕ) : ℚ))) 100 - 8)) 100)
            upper_bound := pyRound1 (clampOccQ (some
              (clampOccQ (some (clampOccQ (some (lastRec.occupied : ℚ)) 100
                + trendDeltaQ [⟨0,56⟩,⟨1,58⟩,⟨2,60⟩] 100 * ((0 + 1 : ℕ) : ℚ))) 100 + 8)) 100)
          } ∧
        (publicFallback [⟨0,56⟩,⟨1,58⟩,⟨2,60⟩] 100 2)[0]? = some
          { date := lastRec.date + ((0 + 1 : ℕ) : ℤ)
            predicted_occupancy := clampOccInt (some
              ((pyRound ((clampOccInt (some (lastRec.occupied : ℚ)) 100 : ℚ)
                + trendDeltaZ [⟨0,56⟩,⟨1,58⟩,⟨2,60⟩] 100 * ((0 + 1 : ℕ) : ℚ)) : ℤ) : ℚ)) 100 })) ∧
    (adminFallback [⟨0,56⟩,⟨1,58⟩,⟨2,60⟩] 100 2).map
      (fun p => (p.predicted_occupancy, p.lower_bound, p.upper_bound)) =
      [(62, 54, 70), (64, 56, 72)] ∧
    (publicFallback [⟨0,56⟩,⟨1,58⟩,⟨2,60⟩] 100 2).map
      (fun p => p.predicted_occupancy) = [62, 64] := by
  have e1 : pyRound ((620:ℚ)) = 620 := pyRound_eq_of_lt_half (by norm_num) (by norm_num)
  have e2 : pyRound ((540:ℚ)) = 540 := pyRound_eq_of_lt_half (by norm_num) (by norm_num)
  have e3 : pyRound ((700:ℚ)) = 700 := pyRound_eq_of_lt_half (by norm_num) (by norm_num)
  have e4 : pyRound ((640:ℚ)) = 640 := pyRound_eq_of_lt_half (by norm_num) (by norm_num)
  have e5 : pyRound ((560:ℚ)) = 560 := pyRound_eq_of_lt_half (by norm_num) (by norm_num)
  have e6 : pyRound ((720:ℚ)) = 720 := pyRound_eq_of_lt_half (by norm_num) (by norm_num)
  have e7 : pyRound ((62:ℚ)) = 62 := pyRound_eq_of_lt_half (by norm_num) (by norm_num)
  have e8 : pyRound ((64:ℚ)) = 64 := pyRound_eq_of_lt_half (by norm_num) (by norm_num)
  refine ⟨⟨by simp, by norm_num,
    C1_fallback_point_values [⟨0,56⟩,⟨1,58⟩,⟨2,60⟩] 100 2 (by simp) 0 (by norm_num)⟩, ?_, ?_⟩
  · norm_num [adminFallback, trendDeltaQ, clampOccQ, pyRound1, min_def, max_def,
      List.range_succ, List.getLast, e1, e2, e3, e4, e5, e6]
  · norm_num [publicFallback, trendDeltaZ, clampOccInt, pyInt, min_def, max_def,
      List.range_succ, List.getLast, e7, e8]

/-- Fourteen-day sample history used to exercise the primary-model path. -/
def sampleRecords14 : List Record :=
  [⟨0,50⟩, ⟨1,50⟩, ⟨2,50⟩, ⟨3,50⟩, ⟨4,50⟩, ⟨5,50⟩, ⟨6,50⟩,
   ⟨7,50⟩, ⟨8,50⟩, ⟨9,50⟩, ⟨10,50⟩, ⟨11,50⟩, ⟨12,50⟩, ⟨13,50⟩]

/-- C3 (amended): on a primary-model failure with at least 14 records the
public forecast endpoint recovers locally by substituting the public
fallback forecast, while the admin predict endpoint surfaces the failure to
the caller as an internal error response; fallback provenance metadata is
attached by the admin endpoint only when it routes to the fallback for
insufficient history. -/
theorem C3_failure_handling (records : List Record) (total : ℤ) (days : ℕ) :
    (14 ≤ records.length →
      getHospitalForecast (Except.error ()) records total days
        = formatForecastResponse ((publicFallback records total days).map
            (fun p => (p.date, (p.predicted_occupancy : ℚ)))) total ∧
      predictOccupancy (Except.error ()) records total days
        = Except.error PredictError.internalError) ∧
    (records ≠ [] → records.length < 14 →
      ∀ primary : Except Unit (List AdminPoint × ModelInfo),
        predictOccupancy primary records total days
          = Except.ok ⟨adminFallback records total days,
              fallbackModelInfo records.length⟩) := by
  constructor
  · intro h14
    have hne : records ≠ [] := by
      intro h
      rw [h] at h14
      simp at h14
    have hE : records.isEmpty = false := by
      simpa [List.isEmpty_iff] using hne
    constructor
    · simp [getHospitalForecast, selectPublicPredictions, hE, if_pos h14]
    · simp [predictOccupancy, hE, if_pos h14]
  · intro hne h14 primary
    have hE : records.isEmpty = false := by
      simpa [List.isEmpty_iff] using hne
    simp [predictOccupancy, hE, if_neg (not_le.mpr h14)]

/-- Counterexample to C3 as stated: on a failing primary model with a
14-record history the admin predict endpoint does not substitute the
fallback forecaster but returns the internal-error response. -/
theorem C3_counterexample :
    predictOccupancy (Except.error ()) sampleRecords14 100 7
      = Except.error PredictError.internalError ∧
    (adminFallback sampleRecords14 100 7).length = 7 := by
  constructor
  · have h14 : (14 : ℕ) ≤ sampleRecords14.length := by simp [sampleRecords14]
    have hE : sampleRecords14.isEmpty = false := by simp [sampleRecords14]
    simp [predictOccupancy, hE, if_pos h14]
  · exact adminFallback_length 100 7 (by simp [sampleRecords14])

/-- Witness for C3 on the 14-record sample history: the public endpoint
returns the formatted fallback forecast and the admin endpoint the error. -/
theorem C3_witness :
    (14 ≤ sampleRecords14.length) ∧
    (getHospitalForecast (Except.error ()) sampleRecords14 100 7
        = formatForecastResponse ((publicFallback sampleRecords14 100 7).map
            (fun p => (p.date, (p.predicted_occupancy : ℚ)))) 100 ∧
      predictOccupancy (Except.error ()) sampleRecords14 100 7
        = Except.error PredictError.internalError) :=
  ⟨by simp [sampleRecords14],
   (C3_failure_handling sampleRecords14 100 7).1 (by simp [sampleRecords14])⟩

lemma publicFallback_pred_bounds {records : List Record} {total : ℤ} {days : ℕ}
    (ht : 0 < total) :
    ∀ p ∈ publicFallback records total days,
      0 ≤ p.predicted_occupancy ∧ p.predicted_occupancy ≤ total := by
  intro p hp
  match records with
  | [] => simp [publicFallback] at hp
  | r :: rs =>
    simp only [publicFallback, List.mem_map, List.mem_range] at hp
    obtain ⟨i, hi, rfl⟩ := hp
    exact ⟨clampOccInt_nonneg _ _, clampOccInt_le ht⟩

lemma compareFallbackAvg_bounds {records : List Record} {total : ℤ} {curr : ℤ}
    (ht : 0 < total) (hne : records ≠ []) :
    0 ≤ compareFallbackAvg records total curr ∧
      compareFallbackAvg records total curr ≤ (total : ℚ) := by
  unfold compareFallbackAvg
  have hlen : (publicFallback records total 7).length = 7 :=
    publicFallback_length total 7 hne
  have hfbne : publicFallback records total 7 ≠ [] := by
    intro h
    rw [h] at hlen
    simp at hlen
  have hE : (publicFallback records total 7).isEmpty = false := by
    simpa [List.isEmpty_iff] using hfbne
  rw [hE]
  simp only [Bool.false_eq_true, if_false, Nat.cast_id]
  have hmapne : (publicFallback records total 7).map
      (fun p => (p.predicted_occupancy : ℚ)) ≠ [] := by
    simpa using hfbne
  have hbounds : ∀ x ∈ (publicFallback records total 7).map
      (fun p => (p.predicted_occupancy : ℚ)), 0 ≤ x ∧ x ≤ (total : ℚ) := by
    intro x hx
    simp only [List.mem_map] at hx
    obtain ⟨p, hp, rfl⟩ := hx
    obtain ⟨h0, hT⟩ := publicFallback_pred_bounds ht p hp
    constructor
    · exact_mod_cast h0
    · exact_mod_cast hT
  have hlenmap : ((publicFallback records total 7).length : ℚ)
      = (((publicFallback records total 7).map
          (fun p => (p.predicted_occupancy : ℚ))).length : ℚ) := by
    simp
  rw [hlenmap]
  exact ⟨le_list_mean hmapne (fun x hx => (hbounds x hx).1),
    list_mean_le hmapne (fun x hx => (hbounds x hx).2)⟩

lemma compareAvg_ok {primary : List Record → Except Unit (List ℚ)}
    {records : List Record} {total : ℤ} {curr : ℤ}
    (ht : 0 < total) (hne : records ≠ [])
    (hp : ∀ ps, primary records = Except.ok ps →
      ps ≠ [] ∧ ∀ x ∈ ps, 0 ≤ x ∧ x ≤ (total : ℚ)) :
    ∃ avg : ℚ, compareAvg primary records total curr = Except.ok avg ∧
      0 ≤ avg ∧ avg ≤ (total : ℚ) := by
  unfold compareAvg
  by_cases h14 : 14 ≤ records.length
  · rw [if_pos h14]
    cases hpr : primary records with
    | ok ps =>
      obtain ⟨hpsne, hbound⟩ := hp ps hpr
      have hE : ps.isEmpty = false := by simpa [List.isEmpty_iff] using hpsne
      refine ⟨ps.sum / ((ps.length : ℕ) : ℚ), by simp [hE], ?_, ?_⟩
      · exact le_list_mean hpsne (fun x hx => (hbound x hx).1)
      · exact list_mean_le hpsne (fun x hx => (hbound x hx).2)
    | error e =>
      obtain ⟨h0, hT⟩ := @compareFallbackAvg_bounds records total curr ht hne
      exact ⟨compareFallbackAvg records total curr, rfl, h0, hT⟩
  · rw [if_neg h14]
    obtain ⟨h0, hT⟩ := @compareFallbackAvg_bounds records total curr ht hne
    exact ⟨compareFallbackAvg records total curr, rfl, h0, hT⟩

/-- C5: for every hospital whose entry the comparison computes with positive
capacity (and a primary model honouring the forecast-point clamping
invariant), the recommendation score is the equal-weight sum of the current
and forecast availability fractions scaled by 50 each, its stored value is
the one-decimal rounding of that sum, the stored value always lies in
[0, 100], an empty hospital with an empty forecast scores exactly 100, and a
fully occupied hospital with a fully occupied forecast scores exactly 0. -/
theorem C5_recommendation_score (primary : List Record → Except Unit (List ℚ))
    (records : List Record) (total : ℤ)
    (ht : 0 < total) (hne : records ≠ [])
    (hp : ∀ ps, primary records = Except.ok ps →
      ps ≠ [] ∧ ∀ x ∈ ps, 0 ≤ x ∧ x ≤ (total : ℚ)) :
    ∃ e, compareEntry primary records total = Except.ok e ∧
      ∃ avg : ℚ, 0 ≤ avg ∧ avg ≤ (total : ℚ) ∧
        0 ≤ e.current_occupancy ∧ e.current_occupancy ≤ total ∧
        recommendationScore total e.current_occupancy avg
          = (((total : ℚ) - (e.current_occupancy : ℚ)) / (total : ℚ)) * 50
            + (((total : ℚ) - avg) / (total : ℚ)) * 50 ∧
        e.recommendation_score
          = pyRound1 (recommendationScore total e.current_occupancy avg) ∧
        0 ≤ e.recommendation_score ∧ e.recommendation_score ≤ 100 ∧
        (e.current_occupancy = 0 ∧ avg = 0 → e.recommendation_score = 100) ∧
        (e.current_occupancy = total ∧ avg = (total : ℚ) →
          e.recommendation_score = 0) := by
  have htQ : (0 : ℚ) < (total : ℚ) := by exact_mod_cast ht
  set lastRec := records.getLastD ⟨0, 0⟩ with hlast
  set curr := clampOccInt (some (lastRec.occupied : ℚ)) total with hcurr
  have hc0 : 0 ≤ curr := clampOccInt_nonneg _ _
  have hcT : curr ≤ total := clampOccInt_le ht
  obtain ⟨avg, havg, havg0, havgT⟩ := @compareAvg_ok primary records total curr ht hne hp
  have heq : compareEntry primary records total = Except.ok
      { current_occupancy := curr
        current_available := max 0 (total - curr)
        utilization_percentage := calculateUtilization (curr : ℚ) total
        avg_predicted_occupancy_7_days := pyRound1 avg
        recommendation_score := pyRound1 (recommendationScore total curr avg)
        risk_level := comparisonRisk (calculateUtilization (curr : ℚ) total) } := by
    simp only [compareEntry]
    rw [← hlast, ← hcurr, havg]
    simp [if_neg ht.ne']
  refine ⟨_, heq, avg, havg0, havgT, hc0, hcT, rfl, rfl, ?_, ?_, ?_, ?_⟩
  · have hc0Q : (0 : ℚ) ≤ (curr : ℚ) := by exact_mod_cast hc0
    have hcTQ : (curr : ℚ) ≤ (total : ℚ) := by exact_mod_cast hcT
    have h1 : 0 ≤ ((total : ℚ) - curr) / total := div_nonneg (by linarith) htQ.le
    have h3 : 0 ≤ ((total : ℚ) - avg) / total := div_nonneg (by linarith) htQ.le
    have hs : 0 ≤ recommendationScore total curr avg := by
      unfold recommendationScore
      nlinarith
    have := @le_pyRound1 0 _ (by simpa using hs)
    simpa using this
  · have hc0Q : (0 : ℚ) ≤ (curr : ℚ) := by exact_mod_cast hc0
    have hcTQ : (curr : ℚ) ≤ (total : ℚ) := by exact_mod_cast hcT
    have h2 : ((total : ℚ) - curr) / total ≤ 1 := (div_le_one htQ).mpr (by linarith)
    have h4 : ((total : ℚ) - avg) / total ≤ 1 := (div_le_one htQ).mpr (by linarith)
    have hs : recommendationScore total curr avg ≤ 100 := by
      unfold recommendationScore
      nlinarith
    have := @pyRound1_le 100 _ (by push_cast; linarith)
    push_cast at this
    linarith
  · rintro ⟨hce, hae⟩
    dsimp only at hce
    have hs : recommendationScore total curr avg = 100 := by
      unfold recommendationScore
      rw [hce, hae]
      push_cast
      rw [sub_zero, div_self htQ.ne']
      ring
    show pyRound1 (recommendationScore total curr avg) = 100
    rw [hs]
    have := pyRound1_intCast 100
    push_cast at this
    exact this
  · rintro ⟨hce, hae⟩
    dsimp only at hce
    have hs : recommendationScore total curr avg = 0 := by
      unfold recommendationScore
      rw [hce, hae]
      ring
    show pyRound1 (recommendationScore total curr avg) = 0
    rw [hs]
    have := pyRound1_intCast 0
    push_cast at this
    exact this

/-- Witness for C5: one hospital with 100 beds, a single record of 20
occupied beds and an unused failing primary model. -/
theorem C5_witness :
    ∃ e, compareEntry (fun _ => Except.error ()) [⟨0, 20⟩] 100 = Except.ok e ∧
      ∃ avg : ℚ, 0 ≤ avg ∧ avg ≤ ((100 : ℤ) : ℚ) ∧
        0 ≤ e.current_occupancy ∧ e.current_occupancy ≤ 100 ∧
        recommendationScore 100 e.current_occupancy avg
          = ((((100 : ℤ) : ℚ) - (e.current_occupancy : ℚ)) / ((100 : ℤ) : ℚ)) * 50
            + ((((100 : ℤ) : ℚ) - avg) / ((100 : ℤ) : ℚ)) * 50 ∧
        e.recommendation_score
          = pyRound1 (recommendationScore 100 e.current_occupancy avg) ∧
        0 ≤ e.recommendation_score ∧ e.recommendation_score ≤ 100 ∧
        (e.current_occupancy = 0 ∧ avg = 0 → e.recommendation_score = 100) ∧
        (e.current_occupancy = 100 ∧ avg = ((100 : ℤ) : ℚ) →
          e.recommendation_score = 0) :=
  C5_recommendation_score (fun _ => Except.error ()) [⟨0, 20⟩] 100
    (by norm_num) (by simp) (fun ps h => by simp at h)

lemma compareAvg_ok_of_ne {primary : List Record → Except Unit (List ℚ)}
    {records : List Record} {total : ℤ} {curr : ℤ}
    (hp : ∀ ps, primary records = Except.ok ps → ps ≠ []) :
    ∃ avg : ℚ, compareAvg primary records total curr = Except.ok avg := by
  unfold compareAvg
  by_cases h14 : 14 ≤ records.length
  · rw [if_pos h14]
    cases hpr : primary records with
    | ok ps =>
      have hE : ps.isEmpty = false := by
        simpa [List.isEmpty_iff] using hp ps hpr
      exact ⟨ps.sum / ((ps.length : ℕ) : ℚ), by simp [hE]⟩
    | error e => exact ⟨_, rfl⟩
  · rw [if_neg h14]
    exact ⟨_, rfl⟩

/-- C8 (amended): with non-positive capacity every utilization computation
reports 0 and the availability, alert and risk classifications complete on
the low tier; with strictly negative capacity the comparison entry also
completes with utilization 0.  With capacity exactly zero, however, the
comparison score computation divides by zero and raises, which the separate
counterexample records. -/
theorem C8_degenerate_capacity (total : ℤ) (v : ℚ) (preds : List (ℤ × ℚ))
    (records : List Record) (primary : List Record → Except Unit (List ℚ))
    (hle : total ≤ 0) :
    calculateUtilization v total = 0 ∧
    availabilityStatus (calculateUtilization v total) = "available" ∧
    riskFromUtilization (calculateUtilization v total) = "low" ∧
    publicAlerts preds total = [] ∧
    (total < 0 → records ≠ [] →
      (∀ ps, primary records = Except.ok ps → ps ≠ []) →
      ∃ e, compareEntry primary records total = Except.ok e ∧
        e.utilization_percentage = 0 ∧ e.risk_level = "low") := by
  have hutil : ∀ w : ℚ, calculateUtilization w total = 0 := by
    intro w
    unfold calculateUtilization
    rw [if_pos hle]
  refine ⟨hutil v, ?_, ?_, ?_, ?_⟩
  · rw [hutil v]
    norm_num [availabilityStatus]
  · rw [hutil v]
    norm_num [riskFromUtilization]
  · unfold publicAlerts
    rw [List.filterMap_eq_nil_iff]
    intro p hp
    dsimp only
    rw [hutil]
    norm_num
  · intro hlt hne hp
    set lastRec := records.getLastD ⟨0, 0⟩ with hlast
    set curr := clampOccInt (some (lastRec.occupied : ℚ)) total with hcurr
    obtain ⟨avg, havg⟩ := @compareAvg_ok_of_ne primary records total curr hp
    have heq : compareEntry primary records total = Except.ok
        { current_occupancy := curr
          current_available := max 0 (total - curr)
          utilization_percentage := calculateUtilization (curr : ℚ) total
          avg_predicted_occupancy_7_days := pyRound1 avg
          recommendation_score := pyRound1 (recommendationScore total curr avg)
          risk_level := comparisonRisk (calculateUtilization (curr : ℚ) total) } := by
      simp only [compareEntry]
      rw [← hlast, ← hcurr, havg]
      simp [if_neg hlt.ne]
    refine ⟨_, heq, ?_, ?_⟩
    · dsimp only
      exact hutil _
    · dsimp only
      rw [hutil]
      norm_num [comparisonRisk]

/-- Counterexample to C8 as stated: a hospital with zero total beds and one
record makes the comparison entry computation divide by zero in the
recommendation score, so the comparison raises instead of completing. -/
theorem C8_counterexample :
    compareEntry (fun _ => Except.error ()) [⟨0, 5⟩] 0 = Except.error () := by
  have h14 : ¬ (14 : ℕ) ≤ ([⟨0, 5⟩] : List Record).length := by norm_num
  simp only [compareEntry, compareAvg]
  rw [if_neg h14]
  simp

/-- Witness for C8 at capacity -2 (and a one-record hospital with a failing
primary model): utilization reports zero, the classifications land on the
low tier, no alert is generated and the comparison entry completes. -/
theorem C8_witness :
    calculateUtilization 30 (-2) = 0 ∧
    availabilityStatus (calculateUtilization 30 (-2)) = "available" ∧
    riskFromUtilization (calculateUtilization 30 (-2)) = "low" ∧
    publicAlerts [(0, 50)] (-2) = [] ∧
    (∃ e, compareEntry (fun _ => Except.error ()) [⟨0, 5⟩] (-2) = Except.ok e ∧
      e.utilization_percentage = 0 ∧ e.risk_level = "low") := by
  have H := C8_degenerate_capacity (-2) 30 [(0, 50)] [⟨0, 5⟩]
    (fun _ => Except.error ()) (by norm_num)
  exact ⟨H.1, H.2.1, H.2.2.1, H.2.2.2.1,
    H.2.2.2.2 (by norm_num) (by simp) (fun ps h => by simp at h)⟩

lemma mem_insertDesc {x y : CompEntry} {l : List CompEntry} :
    y ∈ insertDesc x l ↔ y = x ∨ y ∈ l := by
  induction l with
  | nil => simp [insertDesc]
  | cons z zs ih =>
    unfold insertDesc
    split_ifs with h
    · simp only [List.mem_cons, ih]
      tauto
    · simp only [List.mem_cons]

lemma mem_sortDesc_aux (y : CompEntry) :
    ∀ (l acc : List CompEntry),
      (y ∈ l.foldl (fun a x => insertDesc x a) acc ↔ y ∈ acc ∨ y ∈ l) := by
  intro l
  induction l with
  | nil => simp
  | cons z zs ih =>
    intro acc
    rw [List.foldl_cons, ih]
    simp only [mem_insertDesc, List.mem_cons]
    tauto

lemma mem_sortDesc {y : CompEntry} {l : List CompEntry} :
    y ∈ sortDesc l ↔ y ∈ l := by
  unfold sortDesc
  rw [mem_sortDesc_aux]
  simp

lemma comparisonsLoop_error_iff (primary : List Record → Except Unit (List ℚ)) :
    ∀ hs : List (ℤ × List Record),
      (comparisonsLoop primary hs = Except.error () ↔
        ∃ p ∈ hs, p.2 ≠ [] ∧ compareEntry primary p.2 p.1 = Except.error ()) := by
  intro hs
  induction hs with
  | nil => simp [comparisonsLoop]
  | cons q rest ih =>
    obtain ⟨t, r⟩ := q
    by_cases hr : r.isEmpty
    · have hrnil : r = [] := by simpa [List.isEmpty_iff] using hr
      have hloop : comparisonsLoop primary ((t, r) :: rest)
          = comparisonsLoop primary rest := by
        simp [comparisonsLoop, hr]
      rw [hloop, ih]
      simp only [List.mem_cons]
      constructor
      · rintro ⟨p, hp, hpe, hpc⟩
        exact ⟨p, Or.inr hp, hpe, hpc⟩
      · rintro ⟨p, hp | hp, hpe, hpc⟩
        · rw [hp] at hpe
          exact absurd hrnil hpe
        · exact ⟨p, hp, hpe, hpc⟩
    · have hrne : r ≠ [] := by simpa [List.isEmpty_iff] using hr
      cases hce : compareEntry primary r t with
      | error e =>
        have hloop : comparisonsLoop primary ((t, r) :: rest) = Except.error e := by
          simp [comparisonsLoop, hr, hce]
        rw [hloop]
        constructor
        · intro _
          exact ⟨(t, r), List.mem_cons_self (t, r) rest, hrne, hce⟩
        · intro _
          rfl
      | ok entry =>
        have hmap : ∀ res : Except Unit (List CompEntry),
            (res.map (fun l => entry :: l) = Except.error () ↔ res = Except.error ()) := by
          intro res
          cases res <;> simp [Except.map]
        have hloop : comparisonsLoop primary ((t, r) :: rest)
            = (comparisonsLoop primary rest).map (fun l => entry :: l) := by
          simp [comparisonsLoop, hr, hce]
        rw [hloop, hmap, ih]
        simp only [List.mem_cons]
        constructor
        · rintro ⟨p, hp, hpe, hpc⟩
          exact ⟨p, Or.inr hp, hpe, hpc⟩
        · rintro ⟨p, hp | hp, hpe, hpc⟩
          · rw [hp] at hpc
            rw [hce] at hpc
            exact absurd hpc (by simp)
          · exact ⟨p, hp, hpe, hpc⟩

lemma comparisonsLoop_ok_mem (primary : List Record → Except Unit (List ℚ)) :
    ∀ (hs : List (ℤ × List Record)) (l : List CompEntry),
      comparisonsLoop primary hs = Except.ok l →
      ∀ p ∈ hs, p.2 = [] ∨
        ∃ e, compareEntry primary p.2 p.1 = Except.ok e ∧ e ∈ l := by
  intro hs
  induction hs with
  | nil => simp
  | cons q rest ih =>
    obtain ⟨t, r⟩ := q
    intro l hl p hp
    by_cases hr : r.isEmpty
    · have hloop : comparisonsLoop primary ((t, r) :: rest) = comparisonsLoop primary rest := by
        simp [comparisonsLoop, hr]
      rw [hloop] at hl
      rcases List.mem_cons.mp hp with hp0 | hp1
      · left
        rw [hp0]
        simpa [List.isEmpty_iff] using hr
      · exact ih l hl p hp1
    · cases hce : compareEntry primary r t with
      | error e =>
        have : comparisonsLoop primary ((t, r) :: rest) = Except.error e := by
          simp [comparisonsLoop, hr, hce]
        rw [this] at hl
        exact absurd hl (by simp)
      | ok entry =>
        have hloop : comparisonsLoop primary ((t, r) :: rest)
            = (comparisonsLoop primary rest).map (fun l => entry :: l) := by
          simp [comparisonsLoop, hr, hce]
        rw [hloop] at hl
        cases hrest : comparisonsLoop primary rest with
        | error e =>
          rw [hrest] at hl
          exact absurd hl (by simp [Except.map])
        | ok l0 =>
          rw [hrest] at hl
          have hl0 : l = entry :: l0 := by
            simpa [Except.map] using hl.symm
          rcases List.mem_cons.mp hp with hp0 | hp1
          · right
            rw [hp0]
            exact ⟨entry, hce, by rw [hl0]; exact List.mem_cons_self entry l0⟩
          · rcases ih l0 hrest p hp1 with h | ⟨e, he, hel⟩
            · exact Or.inl h
            · exact Or.inr ⟨e, he, by rw [hl0]; exact List.mem_cons_of_mem entry hel⟩

/-- C9 (amended): in the comparison loop a hospital without any record is
skipped and, when every processed hospital succeeds, each hospital with
records contributes its entry to the returned list; but there is no
per-hospital recovery: the comparison returns an error exactly when some
hospital with records fails, aborting the entries of all other hospitals. -/
theorem C9_partial_results (primary : List Record → Except Unit (List ℚ))
    (hs : List (ℤ × List Record)) :
    (compareHospitals primary hs = Except.error () ↔
      ∃ p ∈ hs, p.2 ≠ [] ∧ compareEntry primary p.2 p.1 = Except.error ()) ∧
    (∀ l, compareHospitals primary hs = Except.ok l →
      ∀ p ∈ hs, p.2 = [] ∨
        ∃ e, compareEntry primary p.2 p.1 = Except.ok e ∧ e ∈ l) := by
  constructor
  · rw [← comparisonsLoop_error_iff primary hs]
    unfold compareHospitals
    cases comparisonsLoop primary hs <;> simp [Except.map]
  · intro l hl p hp
    unfold compareHospitals at hl
    cases hloop : comparisonsLoop primary hs with
    | error e =>
      rw [hloop] at hl
      exact absurd hl (by simp [Except.map])
    | ok l0 =>
      rw [hloop] at hl
      have hl0 : l = sortDesc l0 := by
        simpa [Except.map] using hl.symm
      rcases comparisonsLoop_ok_mem primary hs l0 hloop p hp with h | ⟨e, he, hel⟩
      · exact Or.inl h
      · exact Or.inr ⟨e, he, by rw [hl0]; exact mem_sortDesc.mpr hel⟩

/-- Counterexample to C9 as stated: two hospitals both holding one record,
the first with zero beds.  The first entry computation raises the score
division error and the whole comparison aborts with that error, so the
second hospital, whose own entry computes fine, is not returned. -/
theorem C9_counterexample :
    compareHospitals (fun _ => Except.error ()) [(0, [⟨0, 5⟩]), (10, [⟨0, 5⟩])]
      = Except.error () ∧
    compareEntry (fun _ => Except.error ()) [⟨0, 5⟩] 10
      = Except.ok ⟨5, 5, 50, 5, 50, "low"⟩ := by
  constructor
  · have hent : compareEntry (fun _ => Except.error ()) [⟨0, 5⟩] 0 = Except.error () := by
      have h14 : ¬ (14 : ℕ) ≤ ([⟨0, 5⟩] : List Record).length := by norm_num
      simp only [compareEntry, compareAvg]
      rw [if_neg h14]
      simp
    have hr : (([⟨0, 5⟩] : List Record)).isEmpty = false := by simp
    simp [compareHospitals, comparisonsLoop, hr, hent, Except.map]
  · have e5 : pyRound ((5 : ℚ)) = 5 := pyRound_eq_of_lt_half (by norm_num) (by norm_num)
    have e50 : pyRound ((50 : ℚ)) = 50 := pyRound_eq_of_lt_half (by norm_num) (by norm_num)
    have e500 : pyRound ((500 : ℚ)) = 500 := pyRound_eq_of_lt_half (by norm_num) (by norm_num)
    norm_num [compareEntry, compareAvg, compareFallbackAvg, publicFallback, trendDeltaZ,
      clampOccInt, pyInt, calculateUtilization, pyRound1, recommendationScore,
      comparisonRisk, min_def, max_def, List.range_succ, List.getLast, e5, e50, e500]

lemma formatFold_fst_length (total : ℤ) :
    ∀ (l : List (ℤ × ℚ)) (st : List DayForecast × Option ℤ × Option ℤ),
      ((l.foldl (formatStep total) st).1).length = st.1.length + l.length := by
  intro l
  induction l with
  | nil =>
    intro st
    simp
  | cons p ps ih =>
    intro st
    rw [List.foldl_cons, ih]
    have hstep : ((formatStep total st p).1).length = st.1.length + 1 := by
      simp [formatStep]
    rw [hstep]
    simp only [List.length_cons]
    omega

lemma formatFold_min (total : ℤ) :
    ∀ (l : List (ℤ × ℚ)) (acc : List DayForecast) (d m : ℤ),
      ((l.foldl (formatStep total) (acc, some d, some m)).2 = (some d, some m) ∧
        ∀ p ∈ l, m ≤ clampOccInt (some p.2) total) ∨
      (∃ i, ∃ hi : i < l.length,
        (l.foldl (formatStep total) (acc, some d, some m)).2
          = (some (l[i].1), some (clampOccInt (some (l[i].2)) total)) ∧
        clampOccInt (some (l[i].2)) total < m ∧
        (∀ j, ∀ hj : j < l.length,
          clampOccInt (some (l[i].2)) total ≤ clampOccInt (some (l[j].2)) total) ∧
        (∀ j, ∀ hj : j < l.length, j < i →
          clampOccInt (some (l[i].2)) total < clampOccInt (some (l[j].2)) total)) := by
  intro l
  induction l with
  | nil =>
    intro acc d m
    left
    simp
  | cons p ps ih =>
    intro acc d m
    rw [List.foldl_cons]
    by_cases hlt : clampOccInt (some p.2) total < m
    · have hstep : formatStep total (acc, some d, some m) p
          = ((formatStep total (acc, some d, some m) p).1,
             some p.1, some (clampOccInt (some p.2) total)) := by
        refine Prod.ext rfl ?_
        simp [formatStep, hlt]
      rw [hstep]
      rcases ih (formatStep total (acc, some d, some m) p).1 p.1
          (clampOccInt (some p.2) total) with
        ⟨hst, hall⟩ | ⟨i, hi, hst, hlt2, hmin, hearly⟩
      · right
        refine ⟨0, by simp, by simpa using hst, by simpa using hlt, ?_, ?_⟩
        · intro j hj
          cases j with
          | zero => simp
          | succ k =>
            have hk : k < ps.length := by simpa using hj
            simpa using hall ps[k] (ps.getElem_mem hk)
        · intro j hj hji
          omega
      · right
        have hi1 : i + 1 < (p :: ps).length := by simpa using Nat.succ_lt_succ hi
        refine ⟨i + 1, hi1, by simpa using hst, ?_, ?_, ?_⟩
        · have : clampOccInt (some ((p :: ps)[i+1]).2) total
              < clampOccInt (some p.2) total := by simpa using hlt2
          exact lt_trans this hlt
        · intro j hj
          cases j with
          | zero =>
            have : clampOccInt (some ((p :: ps)[i+1]).2) total
                < clampOccInt (some p.2) total := by simpa using hlt2
            simpa using this.le
          | succ k =>
            have hk : k < ps.length := by simpa using hj
            simpa using hmin k hk
        · intro j hj hji
          cases j with
          | zero =>
            have : clampOccInt (some ((p :: ps)[i+1]).2) total
                < clampOccInt (some p.2) total := by simpa using hlt2
            simpa using this
          | succ k =>
            have hk : k < ps.length := by simpa using hj
            have hki : k < i := by omega
            simpa using hearly k hk hki
    · have hstep : formatStep total (acc, some d, some m) p
          = ((formatStep total (acc, some d, some m) p).1, some d, some m) := by
        refine Prod.ext rfl ?_
        simp [formatStep, hlt]
      rw [hstep]
      have hge : m ≤ clampOccInt (some p.2) total := not_lt.mp hlt
      rcases ih (formatStep total (acc, some d, some m) p).1 d m with
        ⟨hst, hall⟩ | ⟨i, hi, hst, hlt2, hmin, hearly⟩
      · left
        refine ⟨hst, ?_⟩
        intro q hq
        rcases List.mem_cons.mp hq with hq0 | hq1
        · rw [hq0]
          exact hge
        · exact hall q hq1
      · right
        have hi1 : i + 1 < (p :: ps).length := by simpa using Nat.succ_lt_succ hi
        refine ⟨i + 1, hi1, by simpa using hst, ?_, ?_, ?_⟩
        · simpa using hlt2
        · intro j hj
          cases j with
          | zero =>
            have h1 : clampOccInt (some ((p :: ps)[i+1]).2) total < m := by simpa using hlt2
            simpa using (lt_of_lt_of_le h1 hge).le
          | succ k =>
            have hk : k < ps.length := by simpa using hj
            simpa using hmin k hk
        · intro j hj hji
          cases j with
          | zero =>
            have h1 : clampOccInt (some ((p :: ps)[i+1]).2) total < m := by simpa using hlt2
            simpa using lt_of_lt_of_le h1 hge
          | succ k =>
            have hk : k < ps.length := by simpa using hj
            have hki : k < i := by omega
            simpa using hearly k hk hki

/-- C10: in the public forecast response the forecast day list, the best day
to visit and the best day occupancy are empty or none exactly when the input
prediction sequence is empty; for a non-empty sequence the best day is the
date of a prediction whose clamped occupancy is minimal over the horizon and
strictly smaller than every earlier prediction (the earliest minimum), and
the best day occupancy is that minimal clamped occupancy. -/
theorem C10_best_day (preds : List (ℤ × ℚ)) (total : ℤ) :
    ((formatForecastResponse preds total).1 = [] ↔ preds = []) ∧
    ((formatForecastResponse preds total).2.1 = none ↔ preds = []) ∧
    ((formatForecastResponse preds total).2.2 = none ↔ preds = []) ∧
    (preds ≠ [] → ∃ i, ∃ hi : i < preds.length,
      (formatForecastResponse preds total).2.1 = some (preds[i].1) ∧
      (formatForecastResponse preds total).2.2
        = some (clampOccInt (some (preds[i].2)) total) ∧
      (∀ j, ∀ hj : j < preds.length,
        clampOccInt (some (preds[i].2)) total
          ≤ clampOccInt (some (preds[j].2)) total) ∧
      (∀ j, ∀ hj : j < preds.length, j < i →
        clampOccInt (some (preds[i].2)) total
          < clampOccInt (some (preds[j].2)) total)) := by
  match preds with
  | [] =>
    refine ⟨by simp [formatForecastResponse], by simp [formatForecastResponse],
      by simp [formatForecastResponse], fun h => absurd rfl h⟩
  | p :: ps =>
    have hstep : formatStep total ([], none, none) p
        = ((formatStep total ([], none, none) p).1,
           some p.1, some (clampOccInt (some p.2) total)) := by
      refine Prod.ext rfl ?_
      simp [formatStep]
    have hunfold : formatForecastResponse (p :: ps) total
        = ps.foldl (formatStep total)
            ((formatStep total ([], none, none) p).1,
             some p.1, some (clampOccInt (some p.2) total)) := by
      unfold formatForecastResponse
      rw [List.foldl_cons, hstep]
    have hmain := formatFold_min total ps (formatStep total ([], none, none) p).1
      p.1 (clampOccInt (some p.2) total)
    have hsnd : ∃ d0 m0 : ℤ, (formatForecastResponse (p :: ps) total).2
        = (some d0, some m0) := by
      rcases hmain with ⟨hst, _⟩ | ⟨i, hi, hst, _⟩
      · exact ⟨p.1, clampOccInt (some p.2) total, by rw [hunfold, hst]⟩
      · exact ⟨ps[i].1, clampOccInt (some (ps[i].2)) total, by rw [hunfold, hst]⟩
    obtain ⟨d0, m0, hd0⟩ := hsnd
    have hlen : ((formatForecastResponse (p :: ps) total).1).length = 1 + ps.length := by
      unfold formatForecastResponse
      rw [formatFold_fst_length]
      simp only [formatStep, List.length_append, List.length_cons, List.length_nil]
      omega
    refine ⟨?_, ?_, ?_, fun _ => ?_⟩
    · constructor
      · intro h
        rw [h] at hlen
        simp only [List.length_nil] at hlen
        omega
      · intro h
        exact absurd h (by simp)
    · constructor
      · intro h
        rw [hd0] at h
        exact absurd h (by simp)
      · intro h
        exact absurd h (by simp)
    · constructor
      · intro h
        rw [hd0] at h
        exact absurd h (by simp)
      · intro h
        exact absurd h (by simp)
    · rcases hmain with ⟨hst, hall⟩ | ⟨i, hi, hst, hlt2, hmin, hearly⟩
      · refine ⟨0, by simp, ?_, ?_, ?_, ?_⟩
        · rw [hunfold]
          rw [hst]
          simp
        · rw [hunfold]
          rw [hst]
          simp
        · intro j hj
          cases j with
          | zero => simp
          | succ k =>
            have hk : k < ps.length := by simpa using hj
            simpa using hall ps[k] (ps.getElem_mem hk)
        · intro j hj hji
          omega
      · have hi1 : i + 1 < (p :: ps).length := by simpa using Nat.succ_lt_succ hi
        refine ⟨i + 1, hi1, ?_, ?_, ?_, ?_⟩
        · rw [hunfold, hst]
          simp
        · rw [hunfold, hst]
          simp
        · intro j hj
          cases j with
          | zero => simpa using hlt2.le
          | succ k =>
            have hk : k < ps.length := by simpa using hj
            simpa using hmin k hk
        · intro j hj hji
          cases j with
          | zero => simpa using hlt2
          | succ k =>
            have hk : k < ps.length := by simpa using hj
            have hki : k < i := by omega
            simpa using hearly k hk hki

/-- Witness for C10: predictions with occupancies 5, 3, 3 over three days:
the sequence is non-empty, the best day is day 1, the day of the first
occurrence of the minimal occupancy 3. -/
theorem C10_witness :
    (([(0, 5), (1, 3), (2, 3)] : List (ℤ × ℚ)) ≠ []) ∧
    (∃ i, ∃ hi : i < ([(0, 5), (1, 3), (2, 3)] : List (ℤ × ℚ)).length,
      (formatForecastResponse [(0, 5), (1, 3), (2, 3)] 10).2.1
        = some (([(0, 5), (1, 3), (2, 3)] : List (ℤ × ℚ))[i].1) ∧
      (formatForecastResponse [(0, 5), (1, 3), (2, 3)] 10).2.2
        = some (clampOccInt (some (([(0, 5), (1, 3), (2, 3)] : List (ℤ × ℚ))[i].2)) 10) ∧
      (∀ j, ∀ hj : j < ([(0, 5), (1, 3), (2, 3)] : List (ℤ × ℚ)).length,
        clampOccInt (some (([(0, 5), (1, 3), (2, 3)] : List (ℤ × ℚ))[i].2)) 10
          ≤ clampOccInt (some (([(0, 5), (1, 3), (2, 3)] : List (ℤ × ℚ))[j].2)) 10) ∧
      (∀ j, ∀ hj : j < ([(0, 5), (1, 3), (2, 3)] : List (ℤ × ℚ)).length, j < i →
        clampOccInt (some (([(0, 5), (1, 3), (2, 3)] : List (ℤ × ℚ))[i].2)) 10
          < clampOccInt (some (([(0, 5), (1, 3), (2, 3)] : List (ℤ × ℚ))[j].2)) 10)) :=
  ⟨by simp, (C10_best_day [(0, 5), (1, 3), (2, 3)] 10).2.2.2 (by simp)⟩

end BedPredict
